import Mathlib

/-!
# goicmll/message: DingTalk client, robot webhook and mail sender

A shallow embedding of `src/err.go`, `src/dingtalk.go` and `src/emial.go`.

Conventions of the embedding.

* A Go `string` is a Lean `String`; a Go `int64` is an `Int` (only compared with `0`).
* A Go `(*T, error)` result is a record with an `Option T` and an `Option GoError`, so that the
  four nil / non-nil combinations of the Go result are all expressible.
* The package-level token cache `c` and the sequence of calls made into `net/http` are threaded
  through every operation as a `World`.
* The Go standard library and the two third-party packages (`go-cache`, `gomail`) are not part of
  the repository.  Their behaviour enters through the `Env` record (arbitrary, history dependent
  answers of the network and of the decoders), through a finite-map model of the cache store, and
  through executable models of `strings.Join`, `strings.Split` and of `json.Marshal` on the
  message struct.
* The deferred `closeRespBody(resp)` of `src/util.go` only releases the response body after the
  function has computed its results; it has no counterpart here.  The three-second client
  timeout shows up as one of the errors `Env.clientDo` may answer with.
-/

namespace Message

/-! ## `src/err.go` -/

/-- The struct `MessageError` of `err.go`. -/
structure MessageError where
  Msg : String
deriving DecidableEq, Repr

/-- The method `Error` of `MessageError`. -/
def MessageError.Error (receiver : MessageError) : String :=
  receiver.Msg

/-- A non-nil value of the Go interface `error`: either a `*MessageError` of this package or an
error value of some other package (net/http, io, encoding/json, gomail), known by its message. -/
inductive GoError where
  | messageError (e : MessageError)
  | foreign (msg : String)
deriving DecidableEq, Repr

/-- The interface method `Error()`. -/
def GoError.Error : GoError → String
  | .messageError e => e.Error
  | .foreign msg => msg

/-- Whether the dynamic type of the error value is `*MessageError`. -/
def GoError.isMessageError : GoError → Bool
  | .messageError _ => true
  | .foreign _ => false

/-- The constructor `NewMessageError` of `err.go`, already converted to the interface `error`. -/
def NewMessageError (Msg : String) : GoError :=
  .messageError { Msg := Msg }

/-! ## `strings.Join` -/

/-- Go `strings.Join(elems, sep)`. -/
def stringsJoin (elems : List String) (sep : String) : String :=
  sep.intercalate elems

/-! ## URL builders of `src/dingtalk.go` -/

/-- The struct `dingTalkURL`; its second field, also called `dingTalkURL` in Go, is `clientURL`
here. -/
structure dingTalkURL where
  openApiURL : String
  clientURL : String
deriving DecidableEq, Repr

/-- The package-level value `dtu`. -/
def dtu : dingTalkURL :=
  { openApiURL := "https://oapi.dingtalk.com", clientURL := "dingtalk://dingtalkclient" }

/-- Go `BuildRobotSendMsgURL`. -/
def dingTalkURL.BuildRobotSendMsgURL (dtu : dingTalkURL) (accessToken : String) : String :=
  stringsJoin [dtu.openApiURL, "/robot/send?access_token=", accessToken] ""

/-- Go `BuildGetUserDetialByUserIDURL`. -/
def dingTalkURL.BuildGetUserDetialByUserIDURL (dtu : dingTalkURL) (accessToken : String) :
    String :=
  stringsJoin [dtu.openApiURL, "/topapi/v2/user/get?access_token=", accessToken] ""

/-- Go `BuildGetUserInfoUrlByTempCodeURL`. -/
def dingTalkURL.BuildGetUserInfoUrlByTempCodeURL (dtu : dingTalkURL) (accessToken : String) :
    String :=
  stringsJoin [dtu.openApiURL, "/topapi/v2/user/getuserinfo?access_token=", accessToken] ""

/-- Go `BuildGetAccessTokenURL`. -/
def dingTalkURL.BuildGetAccessTokenURL (dtu : dingTalkURL) (appKey appSecret : String) : String :=
  stringsJoin [dtu.openApiURL, "/gettoken?appkey=", appKey, "&appsecret=", appSecret] ""

/-! ## Response types of `src/dingtalk.go` -/

/-- The struct `DingTalkClient`. -/
structure DingTalkClient where
  AppKey : String
  AppSecret : String
  AgentID : String
  CorpID : String
deriving DecidableEq, Repr

/-- The struct `dingTalkAccessTokenResp`, with the embedded `dtBaseResp` flattened. -/
structure dingTalkAccessTokenResp where
  ErrCode : Int
  ErrMsg : String
  AccessToken : String
  ExpiresIn : Int
deriving DecidableEq, Repr

/-- The struct `dingTalkUserInfo`. -/
structure dingTalkUserInfo where
  AssociatedUnionID : String
  UnionID : String
  DeviceID : String
  SysLevel : Int
  Name : String
  Sys : Bool
  UserID : String
deriving DecidableEq, Repr

/-- The struct `dingTalkUserInfoResp`, with the embedded `dtBaseResp` flattened. -/
structure dingTalkUserInfoResp where
  ErrCode : Int
  ErrMsg : String
  Result : dingTalkUserInfo
deriving DecidableEq, Repr

/-- The struct `dingTalkUserDetail`. -/
structure dingTalkUserDetail where
  UnionID : String
  UserID : String
  Email : String
  Mobile : String
  Active : Bool
  Remark : String
  Name : String
deriving DecidableEq, Repr

/-- The struct `dingTalkUserDetailResp`, with the embedded `dtBaseResp` flattened. -/
structure dingTalkUserDetailResp where
  ErrCode : Int
  ErrMsg : String
  Result : dingTalkUserDetail
deriving DecidableEq, Repr

/-! ## The token cache -/

/-- A value stored in the go-cache store (a Go `interface` value): a string, or something else. -/
inductive CacheObj where
  | str (s : String)
  | other (tag : Nat)
deriving DecidableEq, Repr

/-- The live items of a go-cache store `*cache.Cache`.  Expiry is an event of the environment:
it removes an item between two operations and is not performed by any function below. -/
structure GoCache where
  items : String → Option CacheObj

/-- The call `C.Get(k)` of go-cache: the stored object and `true`, or nothing and `false`. -/
def GoCache.Get (C : GoCache) (k : String) : Option CacheObj :=
  C.items k

/-- The call `C.Set(k, x, cache.DefaultExpiration)` of go-cache. -/
def GoCache.Set (C : GoCache) (k : String) (x : CacheObj) : GoCache :=
  { items := fun k' => if k' = k then some x else C.items k' }

/-- The struct `DingTalkAccessTokenCache`. -/
structure DingTalkAccessTokenCache where
  C : GoCache

/-- Go `DingTalkAccessTokenCache.Get`: the cached token, or the empty string. -/
def DingTalkAccessTokenCache.Get (d : DingTalkAccessTokenCache) (appKey : String) : String :=
  match d.C.Get appKey with
  | some v =>
    match v with
    | .str v1 => v1
    | .other _ => ""
  | none => ""

/-- Go `DingTalkAccessTokenCache.Update`. -/
def DingTalkAccessTokenCache.Update (d : DingTalkAccessTokenCache) (appKey token : String) :
    DingTalkAccessTokenCache :=
  { C := d.C.Set appKey (.str token) }

/-! ## The HTTP boundary -/

/-- An `*http.Request` as built by `http.NewRequest(method, url, body)`. -/
structure Request where
  method : String
  url : String
  body : String
deriving DecidableEq, Repr

/-- An `*http.Response`: its status code and what `io.ReadAll(resp.Body)` yields. -/
structure Response where
  StatusCode : Nat
  Body : Except GoError String

/-- One call into `net/http`. -/
inductive Event where
  | newRequest (method url body : String)
  | clientDo (req : Request)
  | post (url contentType body : String)
deriving DecidableEq, Repr

/-- The URL an event refers to. -/
def Event.url : Event → String
  | .newRequest _ url _ => url
  | .clientDo req => req.url
  | .post url _ _ => url

/-- Whether the event puts a request on the wire. -/
def Event.isSend : Event → Bool
  | .newRequest _ _ _ => false
  | .clientDo _ => true
  | .post _ _ _ => true

/-- The shared state: the package-level cache `c` and the calls made into `net/http` so far,
oldest first. -/
structure World where
  c : DingTalkAccessTokenCache
  trace : List Event

/-- Append an event to the trace. -/
def World.log (w : World) (e : Event) : World :=
  { w with trace := w.trace ++ [e] }

/-- The behaviour of everything outside the repository.  Every answer may depend on the whole
history of earlier calls. -/
structure Env where
  /-- The error of `http.NewRequest(method, url, body)`, if any (it validates method and URL). -/
  newRequestErr : String → String → Option GoError
  /-- The answer of `(&http.Client{Timeout: 3s}).Do(req)` after the given history. -/
  clientDo : List Event → Request → Except GoError Response
  /-- The answer of `http.Post(url, contentType, body)` after the given history. -/
  httpPost : List Event → String → String → String → Except GoError Response
  /-- The effect of `json.Unmarshal(b, &r)` on a zero `dingTalkAccessTokenResp`. -/
  unmarshalAccessTokenResp : String → Option dingTalkAccessTokenResp
  /-- The effect of `json.Unmarshal(b, &r)` on a zero `dingTalkUserInfoResp`. -/
  unmarshalUserInfoResp : String → Option dingTalkUserInfoResp
  /-- The effect of `json.Unmarshal(b, &r)` on a zero `dingTalkUserDetailResp`. -/
  unmarshalUserDetailResp : String → Option dingTalkUserDetailResp

/-- A Go result `(T, error)` together with the world the call leaves behind. -/
structure Ret (α : Type) where
  val : α
  err : Option GoError
  world : World

/-! ## `DingTalkClient` -/

/-- Go `DingTalkClient.GetAccessToken`. -/
def DingTalkClient.GetAccessToken (env : Env) (dtc : DingTalkClient) (w : World) :
    Ret (Option dingTalkAccessTokenResp) :=
  if dtc.AppKey = "" ∨ dtc.AppSecret = "" then
    ⟨none, some (NewMessageError "不可用的AppKey或AppSecret!"), w⟩
  else
    let url := dtu.BuildGetAccessTokenURL dtc.AppKey dtc.AppSecret
    let w1 := w.log (.newRequest "GET" url "")
    match env.newRequestErr "GET" url with
    | some err => ⟨none, some (NewMessageError err.Error), w1⟩
    | none =>
      let req : Request := { method := "GET", url := url, body := "" }
      let w2 := w1.log (.clientDo req)
      match env.clientDo w1.trace req with
      | .error err => ⟨none, some (NewMessageError err.Error), w2⟩
      | .ok resp =>
        match resp.Body with
        | .error err => ⟨none, some (NewMessageError err.Error), w2⟩
        | .ok b =>
          match env.unmarshalAccessTokenResp b with
          | none => ⟨none, some (NewMessageError "json解析钉钉接口响应错误"), w2⟩
          | some r =>
            if r.ErrCode = 0 then
              ⟨some r, none, { w2 with c := w2.c.Update dtc.AppKey r.AccessToken }⟩
            else
              ⟨none, some (NewMessageError r.ErrMsg), w2⟩

/-- Go `DingTalkClient.GetAccessTokenFromCache`.  The last branch of the match stands for the
dereference `ac.AccessToken` of a nil `ac` under a nil `err`; `GetAccessToken_val_err` shows that
`GetAccessToken` never produces that combination. -/
def DingTalkClient.GetAccessTokenFromCache (env : Env) (dtc : DingTalkClient) (w : World) :
    Ret String :=
  let ac := w.c.Get dtc.AppKey
  if ac ≠ "" then
    ⟨ac, none, w⟩
  else
    let r := dtc.GetAccessToken env w
    match r.err, r.val with
    | some err, _ => ⟨"", some (NewMessageError err.Error), r.world⟩
    | none, some ac => ⟨ac.AccessToken, none, r.world⟩
    | none, none => ⟨"", none, r.world⟩

/-- Go `fmt.Sprintf` with the format of the user-info request body and one `%s` argument. -/
def userInfoReqBody (tempCode : String) : String :=
  "\x7b\"code\": \"" ++ tempCode ++ "\"\x7d"

/-- Go `fmt.Sprintf` with the format of the user-detail request body and one `%s` argument. -/
def userDetailReqBody (userID : String) : String :=
  "\x7b\"userid\": \"" ++ userID ++ "\", \"language\": \"zh_CN\"\x7d"

/-- Go `DingTalkClient.GetUserInfoByTempCode`. -/
def DingTalkClient.GetUserInfoByTempCode (env : Env) (dtc : DingTalkClient) (tempCode : String)
    (w : World) : Ret (Option dingTalkUserInfoResp) :=
  let t := dtc.GetAccessTokenFromCache env w
  match t.err with
  | some err => ⟨none, some (NewMessageError err.Error), t.world⟩
  | none =>
    let ac := t.val
    let reqBody := userInfoReqBody tempCode
    let url := dtu.BuildGetUserInfoUrlByTempCodeURL ac
    let w1 := t.world.log (.newRequest "POST" url reqBody)
    match env.newRequestErr "POST" url with
    | some err => ⟨none, some (NewMessageError err.Error), w1⟩
    | none =>
      let req : Request := { method := "POST", url := url, body := reqBody }
      let w2 := w1.log (.clientDo req)
      match env.clientDo w1.trace req with
      | .error err => ⟨none, some (NewMessageError err.Error), w2⟩
      | .ok resp =>
        match resp.Body with
        | .error err => ⟨none, some (NewMessageError err.Error), w2⟩
        | .ok respBody =>
          match env.unmarshalUserInfoResp respBody with
          | none => ⟨none, some (NewMessageError "json解析钉钉接口响应错误"), w2⟩
          | some r =>
            if r.ErrCode = 0 then
              ⟨some r, none, w2⟩
            else
              ⟨none, some (NewMessageError r.ErrMsg), w2⟩

/-- Go `DingTalkClient.GetUserDetailByTemCode`.  The branch `none, none` stands for the
dereference `userInfo.Result.UserID` of a nil `userInfo` under a nil `err`;
`GetUserInfoByTempCode_val_err` shows that it is never taken. -/
def DingTalkClient.GetUserDetailByTemCode (env : Env) (dtc : DingTalkClient) (tempCode : String)
    (w : World) : Ret (Option dingTalkUserDetailResp) :=
  let t := dtc.GetAccessTokenFromCache env w
  match t.err with
  | some err => ⟨none, some (NewMessageError err.Error), t.world⟩
  | none =>
    let ac := t.val
    let u := dtc.GetUserInfoByTempCode env tempCode t.world
    match u.err, u.val with
    | some err, _ => ⟨none, some (NewMessageError err.Error), u.world⟩
    | none, none => ⟨none, none, u.world⟩
    | none, some userInfo =>
      let reqBody := userDetailReqBody userInfo.Result.UserID
      let url := dtu.BuildGetUserDetialByUserIDURL ac
      let w1 := u.world.log (.newRequest "POST" url reqBody)
      match env.newRequestErr "POST" url with
      | some err => ⟨none, some (NewMessageError err.Error), w1⟩
      | none =>
        let req : Request := { method := "POST", url := url, body := reqBody }
        let w2 := w1.log (.clientDo req)
        match env.clientDo w1.trace req with
        | .error err => ⟨none, some (NewMessageError err.Error), w2⟩
        | .ok resp =>
          match resp.Body with
          | .error err => ⟨none, some (NewMessageError err.Error), w2⟩
          | .ok respBody =>
            match env.unmarshalUserDetailResp respBody with
            | none => ⟨none, some (NewMessageError "json解析钉钉接口响应错误"), w2⟩
            | some r =>
              if r.ErrCode = 0 then
                ⟨some r, none, w2⟩
              else
                ⟨none, some (NewMessageError r.ErrMsg), w2⟩

/-! ## The robot webhook -/

/-- The struct `DingTalkMarkdownMsg`. -/
structure DingTalkMarkdownMsg where
  Title : String
  Text : String
deriving DecidableEq, Repr

/-- The struct `DingTalkAt`; a nil and an empty `AtMobiles` slice are both the empty list. -/
structure DingTalkAt where
  AtMobiles : List String
  IsAtAll : Bool
deriving DecidableEq, Repr

/-- The struct `DingTalkMsg`. -/
structure DingTalkMsg where
  Msgtype : String
  Markdown : DingTalkMarkdownMsg
  At : DingTalkAt
deriving DecidableEq, Repr

/-- The struct `DingTalkRobot`. -/
structure DingTalkRobot where
  AccessToken : String
deriving DecidableEq, Repr

/-- The digit table `hex` of `encoding/json`. -/
def jsonHex (n : Nat) : Char :=
  "0123456789abcdef".data.getD n '0'

/-- The table `htmlSafeSet` of `encoding/json`: the ASCII characters that `json.Marshal` copies
unchanged, namely U+0020 .. U+007F without the double quote, `&`, `<`, `>` and the backslash. -/
def htmlSafeSet (c : Char) : Bool :=
  decide (32 ≤ c.toNat) && decide (c.toNat < 128) && !(c.toNat == 34) && !(c.toNat == 38) &&
    !(c.toNat == 60) && !(c.toNat == 62) && !(c.toNat == 92)

/-- One step of the loop of `appendString` of `encoding/json` (HTML escaping on, as in
`json.Marshal`; short escapes as in Go 1.22 and later) on a valid code point. -/
def jsonEscapeChar (c : Char) : List Char :=
  if c.toNat < 128 then
    if htmlSafeSet c then [c]
    else if c.toNat = 92 ∨ c.toNat = 34 then [Char.ofNat 92, c]
    else if c.toNat = 8 then [Char.ofNat 92, 'b']
    else if c.toNat = 12 then [Char.ofNat 92, 'f']
    else if c.toNat = 10 then [Char.ofNat 92, 'n']
    else if c.toNat = 13 then [Char.ofNat 92, 'r']
    else if c.toNat = 9 then [Char.ofNat 92, 't']
    else [Char.ofNat 92, 'u', '0', '0', jsonHex (c.toNat / 16), jsonHex (c.toNat % 16)]
  else if c.toNat = 8232 ∨ c.toNat = 8233 then
    [Char.ofNat 92, 'u', '2', '0', '2', jsonHex (c.toNat % 16)]
  else [c]

/-- The JSON text `json.Marshal` writes for a Go string of valid UTF-8. -/
def jsonString (s : String) : String :=
  "\"" ++ String.mk (s.data.flatMap jsonEscapeChar) ++ "\""

/-- The JSON text of a `[]string`. -/
def jsonStringArray (xs : List String) : String :=
  "[" ++ ",".intercalate (xs.map jsonString) ++ "]"

/-- The JSON text of a struct, from the fields that are written (name and encoded value). -/
def jsonObject (fields : List (String × String)) : String :=
  "\x7b" ++ ",".intercalate (fields.map fun f => jsonString f.1 ++ ":" ++ f.2) ++ "\x7d"

/-- The result of `json.Marshal` on a `DingTalkMarkdownMsg`: both fields are `omitempty`. -/
def DingTalkMarkdownMsg.marshal (m : DingTalkMarkdownMsg) : String :=
  jsonObject
    ((if m.Title = "" then [] else [("title", jsonString m.Title)]) ++
     (if m.Text = "" then [] else [("text", jsonString m.Text)]))

/-- The result of `json.Marshal` on a `DingTalkAt`: both fields are `omitempty`. -/
def DingTalkAt.marshal (a : DingTalkAt) : String :=
  jsonObject
    ((if a.AtMobiles.length = 0 then [] else [("atMobiles", jsonStringArray a.AtMobiles)]) ++
     (if a.IsAtAll = false then [] else [("isAtAll", "true")]))

/-- The result of `json.Marshal(msg)`: `omitempty` never drops a field of struct type, so the
three fields are always written. -/
def DingTalkMsg.marshal (msg : DingTalkMsg) : String :=
  jsonObject
    [("msgtype", jsonString msg.Msgtype), ("markdown", msg.Markdown.marshal),
     ("at", msg.At.marshal)]

/-- Go `DingTalkRobot.SendMsg`. -/
def DingTalkRobot.SendMsg (env : Env) (dtr : DingTalkRobot) (msg : DingTalkMsg) (w : World) :
    Ret Unit :=
  let jsonBytes := msg.marshal
  let url := dtu.BuildRobotSendMsgURL dtr.AccessToken
  let w1 := w.log (.post url "application/json" jsonBytes)
  match env.httpPost w.trace url "application/json" jsonBytes with
  | .error err => ⟨(), some (NewMessageError err.Error), w1⟩
  | .ok _ => ⟨(), none, w1⟩

/-! ## `strings.Split` and the mail sender of `src/emial.go` -/

/-- The loop of Go `strings.Split` for a non-empty separator, on code points: the pieces of the
input between successive non-overlapping occurrences of `sep`, searched from the left.  `skip`
counts the characters of an occurrence already found that are still to be passed over. -/
def stringsSplitLoop (sep : List Char) : List Char → Nat → List (List Char)
  | [], _ => [[]]
  | _ :: cs, skip + 1 => stringsSplitLoop sep cs skip
  | c :: cs, 0 =>
    if sep.isPrefixOf (c :: cs) then
      [] :: stringsSplitLoop sep cs (sep.length - 1)
    else
      match stringsSplitLoop sep cs 0 with
      | [] => [[c]]
      | hd :: tl => (c :: hd) :: tl

/-- Go `strings.Split(s, sep)`; with an empty separator the string is split after each code
point. -/
def stringsSplit (s sep : String) : List String :=
  if sep = "" then s.data.map fun c => String.mk [c]
  else (stringsSplitLoop sep.data s.data 0).map String.mk

/-- The struct `mail`. -/
structure mail where
  host : String
  port : Int
  account : String
  password : String
deriving DecidableEq, Repr

/-- Go `NewMail`. -/
def NewMail (host : String) (port : Int) (account password : String) : mail :=
  { host := host, port := port, account := account, password := password }

/-- A `*gomail.Dialer` as returned by `gomail.NewDialer`. -/
structure GomailDialer where
  Host : String
  Port : Int
  Username : String
  Password : String
deriving DecidableEq, Repr

/-- A `*gomail.Message`, as far as this package fills it: the header map with the values as they
are handed to `SetHeader`, the body set by `SetBody`, the attached file names and the encoding
setting. -/
structure GomailMessage where
  encoding : String
  header : String → Option (List String)
  body : Option (String × String)
  attachments : List String

/-- The call `gomail.NewMessage(gomail.SetEncoding(gomail.Base64))`. -/
def GomailMessage.new : GomailMessage :=
  { encoding := "base64", header := fun _ => none, body := none, attachments := [] }

/-- The call `msg.SetHeader(field, value...)`. -/
def GomailMessage.SetHeader (msg : GomailMessage) (field : String) (value : List String) :
    GomailMessage :=
  { msg with header := fun f => if f = field then some value else msg.header f }

/-- The call `msg.SetBody(contentType, body)`. -/
def GomailMessage.SetBody (msg : GomailMessage) (contentType body : String) : GomailMessage :=
  { msg with body := some (contentType, body) }

/-- The call `msg.Attach(filename)`. -/
def GomailMessage.Attach (msg : GomailMessage) (filename : String) : GomailMessage :=
  { msg with attachments := msg.attachments ++ [filename] }

/-- The behaviour of gomail that this package relies on. -/
structure MailEnv where
  /-- The result of `msg.FormatAddress(address, name)`. -/
  formatAddress : String → String → String
  /-- The result of `d.DialAndSend(msg)`. -/
  dialAndSend : GomailDialer → GomailMessage → Option GoError

/-- The outcome of a send: the returned `error` and the message handed to `DialAndSend`. -/
structure MailRet where
  err : Option GoError
  sent : GomailMessage

/-- Go `mail.SendText`. -/
def mail.SendText (env : MailEnv) (m : mail) (subject sender toStr CcStr body : String) :
    MailRet :=
  let d : GomailDialer := ⟨m.host, m.port, m.account, m.password⟩
  let msg := GomailMessage.new
  let msg := msg.SetHeader "From" [env.formatAddress m.account sender]
  let msg := msg.SetHeader "To" (stringsSplit toStr ",")
  let msg := msg.SetHeader "Subject" [subject]
  let msg := msg.SetBody "text" body
  let msg := msg.SetHeader "Cc" (stringsSplit CcStr ",")
  let err := env.dialAndSend d msg
  ⟨err, msg⟩

/-- Go `mail.SendTextWithAttach`. -/
def mail.SendTextWithAttach (env : MailEnv) (m : mail) (subject sender toStr CcStr body : String)
    (filePath : List String) : MailRet :=
  let d : GomailDialer := ⟨m.host, m.port, m.account, m.password⟩
  let msg := GomailMessage.new
  let msg := filePath.foldl (fun acc fp => acc.Attach fp) msg
  let msg := msg.SetHeader "From" [env.formatAddress m.account sender]
  let msg := msg.SetHeader "To" (stringsSplit toStr ",")
  let msg := msg.SetHeader "Subject" [subject]
  let msg := msg.SetHeader "Cc" (stringsSplit CcStr ",")
  let msg := msg.SetBody "text" body
  let err := env.dialAndSend d msg
  ⟨err, msg⟩

/-- The number of occurrences of the comma in a string. -/
def commaCount (s : String) : Nat :=
  s.data.count ','

/-! ## Sample inputs -/

/-- A world with an empty cache and no call made yet. -/
def World.empty : World :=
  { c := { C := { items := fun _ => none } }, trace := [] }

/-- The request `GetAccessToken` sends for a client. -/
def DingTalkClient.tokenRequest (dtc : DingTalkClient) : Request :=
  { method := "GET", url := dtu.BuildGetAccessTokenURL dtc.AppKey dtc.AppSecret, body := "" }

/-- The history `GetAccessToken` presents to the network when it sends its request. -/
def DingTalkClient.tokenHistory (dtc : DingTalkClient) (w : World) : List Event :=
  w.trace ++ [Event.newRequest "GET" (dtu.BuildGetAccessTokenURL dtc.AppKey dtc.AppSecret) ""]

/-- An environment in which every request is accepted and answered with status 200 and the given
body, and each decoder returns the given value whatever the body. -/
def Env.const (body : String) (tok : Option dingTalkAccessTokenResp)
    (info : Option dingTalkUserInfoResp) (detail : Option dingTalkUserDetailResp) : Env :=
  { newRequestErr := fun _ _ => none
    clientDo := fun _ _ => .ok { StatusCode := 200, Body := .ok body }
    httpPost := fun _ _ _ _ => .ok { StatusCode := 200, Body := .ok body }
    unmarshalAccessTokenResp := fun _ => tok
    unmarshalUserInfoResp := fun _ => info
    unmarshalUserDetailResp := fun _ => detail }

/-- A client with both credentials set. -/
def sampleClient : DingTalkClient :=
  { AppKey := "key", AppSecret := "secret", AgentID := "1", CorpID := "corp" }

/-- A successful token response with the token `tok`. -/
def tokenOk (tok : String) : dingTalkAccessTokenResp :=
  { ErrCode := 0, ErrMsg := "ok", AccessToken := tok, ExpiresIn := 7200 }

/-- A rejected token response. -/
def tokenRejected : dingTalkAccessTokenResp :=
  { ErrCode := 40089, ErrMsg := "invalid appkey or appsecret", AccessToken := "", ExpiresIn := 0 }

/-- A token endpoint that answers errcode 0 without an access_token: the body and what
`json.Unmarshal` makes of it. -/
def Env.emptyToken : Env :=
  Env.const "\x7b\"errcode\":0,\"errmsg\":\"ok\"\x7d"
    (some { ErrCode := 0, ErrMsg := "ok", AccessToken := "", ExpiresIn := 0 }) none none

/-- The number of requests put on the wire so far. -/
def World.sendCount (w : World) : Nat :=
  (w.trace.filter Event.isSend).length

/-- Whether a URL addresses the user-detail endpoint `/topapi/v2/user/get` of the open API. -/
def isUserDetailURL (url : String) : Bool :=
  (dtu.openApiURL ++ "/topapi/v2/user/get?").data.isPrefixOf url.data

/-- The world `w2` continues `w1` by calls none of which addresses the user-detail endpoint. -/
def World.noDetailSince (w1 w2 : World) : Prop :=
  ∃ evs, w2.trace = w1.trace ++ evs ∧ ∀ ev ∈ evs, isUserDetailURL ev.url = false

/-- The shape of a Go result `(*T, error)`: exactly one of the pointer and the error is non-nil,
and the error, when present, is a `*MessageError`. -/
def Ret.wellShaped {α : Type} (out : Ret (Option α)) : Prop :=
  ((out.val ≠ none ∧ out.err = none) ∨ (out.val = none ∧ out.err ≠ none)) ∧
  ∀ e, out.err = some e → e.isMessageError = true

/-! ## Theorems -/

/-- Go `GetAccessToken` returns exactly one of result and error, and only `*MessageError`s. -/
theorem GetAccessToken_val_err (env : Env) (dtc : DingTalkClient) (w : World) :
    (dtc.GetAccessToken env w).wellShaped := by
  generalize hout : dtc.GetAccessToken env w = out
  simp only [DingTalkClient.GetAccessToken] at hout
  repeat' split at hout
  all_goals (subst hout; simp [Ret.wellShaped, NewMessageError, GoError.isMessageError])

/-- Go `GetAccessTokenFromCache` returns the empty token with every error, and only
`*MessageError`s. -/
theorem GetAccessTokenFromCache_err (env : Env) (dtc : DingTalkClient) (w : World) (e : GoError)
    (h : (dtc.GetAccessTokenFromCache env w).err = some e) :
    (dtc.GetAccessTokenFromCache env w).val = "" ∧ e.isMessageError = true := by
  generalize hout : dtc.GetAccessTokenFromCache env w = out at h
  simp only [DingTalkClient.GetAccessTokenFromCache] at hout
  repeat' split at hout
  all_goals (subst hout; simp_all [NewMessageError, GoError.isMessageError])
  all_goals (subst h; rfl)

/-- Go `GetUserInfoByTempCode` returns exactly one of result and error, and only
`*MessageError`s. -/
theorem GetUserInfoByTempCode_val_err (env : Env) (dtc : DingTalkClient) (tempCode : String)
    (w : World) : (dtc.GetUserInfoByTempCode env tempCode w).wellShaped := by
  generalize hout : dtc.GetUserInfoByTempCode env tempCode w = out
  simp only [DingTalkClient.GetUserInfoByTempCode] at hout
  repeat' split at hout
  all_goals (subst hout; simp [Ret.wellShaped, NewMessageError, GoError.isMessageError])

/-- Go `GetUserDetailByTemCode` returns exactly one of result and error, and only
`*MessageError`s. -/
theorem GetUserDetailByTemCode_val_err (env : Env) (dtc : DingTalkClient) (tempCode : String)
    (w : World) : (dtc.GetUserDetailByTemCode env tempCode w).wellShaped := by
  have hu := GetUserInfoByTempCode_val_err env dtc tempCode (dtc.GetAccessTokenFromCache env w).world
  generalize hout : dtc.GetUserDetailByTemCode env tempCode w = out
  simp only [DingTalkClient.GetUserDetailByTemCode] at hout
  unfold Ret.wellShaped at hu
  repeat' split at hout
  all_goals (subst hout; simp_all [Ret.wellShaped, NewMessageError, GoError.isMessageError])

/-- The URL of the token request does not address the user-detail endpoint. -/
theorem tokenURL_not_userDetail (k t : String) :
    isUserDetailURL (dtu.BuildGetAccessTokenURL k t) = false := by
  cases k; cases t; rfl

/-- The URL of the user-info request does not address the user-detail endpoint. -/
theorem userInfoURL_not_userDetail (ac : String) :
    isUserDetailURL (dtu.BuildGetUserInfoUrlByTempCodeURL ac) = false := by
  cases ac; rfl

/-- The URL of the user-detail request addresses the user-detail endpoint. -/
theorem userDetailURL_is_userDetail (ac : String) :
    isUserDetailURL (dtu.BuildGetUserDetialByUserIDURL ac) = true := by
  cases ac; rfl

/-- Nothing has happened since the world itself. -/
theorem World.noDetailSince_refl (w : World) : w.noDetailSince w :=
  ⟨[], by simp, by simp⟩

/-- Logging a call to another URL keeps `noDetailSince`. -/
theorem World.noDetailSince_log {w1 w2 : World} (h : w1.noDetailSince w2) (e : Event)
    (he : isUserDetailURL e.url = false) : w1.noDetailSince (w2.log e) := by
  obtain ⟨evs, h1, h2⟩ := h
  refine ⟨evs ++ [e], by simp [World.log, h1], ?_⟩
  intro ev hev
  rcases List.mem_append.1 hev with h | h
  · exact h2 ev h
  · rw [List.mem_singleton.1 h]; exact he

/-- The relation `noDetailSince` composes. -/
theorem World.noDetailSince_trans {w1 w2 w3 : World} (h12 : w1.noDetailSince w2)
    (h23 : w2.noDetailSince w3) : w1.noDetailSince w3 := by
  obtain ⟨e1, h1, p1⟩ := h12
  obtain ⟨e2, h2, p2⟩ := h23
  refine ⟨e1 ++ e2, by rw [h2, h1, List.append_assoc], ?_⟩
  intro ev hev
  rcases List.mem_append.1 hev with h | h
  · exact p1 ev h
  · exact p2 ev h

/-- Go `GetAccessToken` only adds events to the trace, none of them to the user-detail endpoint. -/
theorem GetAccessToken_trace (env : Env) (dtc : DingTalkClient) (w : World) :
    w.noDetailSince (dtc.GetAccessToken env w).world := by
  have e1 := World.noDetailSince_log (World.noDetailSince_refl w)
    (.newRequest "GET" (dtu.BuildGetAccessTokenURL dtc.AppKey dtc.AppSecret) "")
    (tokenURL_not_userDetail _ _)
  have e2 := World.noDetailSince_log e1
    (.clientDo ⟨"GET", dtu.BuildGetAccessTokenURL dtc.AppKey dtc.AppSecret, ""⟩)
    (tokenURL_not_userDetail _ _)
  generalize hout : dtc.GetAccessToken env w = out
  simp only [DingTalkClient.GetAccessToken] at hout
  repeat' split at hout
  all_goals (subst hout; first | exact World.noDetailSince_refl w | exact e1 | exact e2)

/-- Go `GetAccessToken` puts at most one request on the wire. -/
theorem GetAccessToken_sendCount (env : Env) (dtc : DingTalkClient) (w : World) :
    (dtc.GetAccessToken env w).world.sendCount ≤ w.sendCount + 1 := by
  generalize hout : dtc.GetAccessToken env w = out
  simp only [DingTalkClient.GetAccessToken] at hout
  repeat' split at hout
  all_goals (subst hout; simp [World.log, World.sendCount, Event.isSend, List.filter_append])

/-- Go `GetAccessTokenFromCache` only adds events to the trace, none of them to the user-detail
endpoint. -/
theorem GetAccessTokenFromCache_trace (env : Env) (dtc : DingTalkClient) (w : World) :
    w.noDetailSince (dtc.GetAccessTokenFromCache env w).world := by
  have h := GetAccessToken_trace env dtc w
  generalize hout : dtc.GetAccessTokenFromCache env w = out
  simp only [DingTalkClient.GetAccessTokenFromCache] at hout
  repeat' split at hout
  all_goals (subst hout; first | exact h | exact World.noDetailSince_refl w)

/-- Go `GetUserInfoByTempCode` only adds events to the trace, none of them to the user-detail
endpoint. -/
theorem GetUserInfoByTempCode_trace (env : Env) (dtc : DingTalkClient) (tempCode : String)
    (w : World) : w.noDetailSince (dtc.GetUserInfoByTempCode env tempCode w).world := by
  have e0 := GetAccessTokenFromCache_trace env dtc w
  have e1 := World.noDetailSince_log e0
    (.newRequest "POST"
      (dtu.BuildGetUserInfoUrlByTempCodeURL (dtc.GetAccessTokenFromCache env w).val)
      (userInfoReqBody tempCode))
    (userInfoURL_not_userDetail _)
  have e2 := World.noDetailSince_log e1
    (.clientDo ⟨"POST",
      dtu.BuildGetUserInfoUrlByTempCodeURL (dtc.GetAccessTokenFromCache env w).val,
      userInfoReqBody tempCode⟩)
    (userInfoURL_not_userDetail _)
  generalize hout : dtc.GetUserInfoByTempCode env tempCode w = out
  simp only [DingTalkClient.GetUserInfoByTempCode] at hout
  repeat' split at hout
  all_goals (subst hout; first | exact e0 | exact e1 | exact e2)

/-- Reading back the key just updated yields the stored token. -/
theorem DingTalkAccessTokenCache.Get_Update (d : DingTalkAccessTokenCache) (k t : String) :
    (d.Update k t).Get k = t := by
  simp [DingTalkAccessTokenCache.Get, DingTalkAccessTokenCache.Update, GoCache.Get, GoCache.Set]

/-- A result returned by `GetAccessToken` has errcode 0 and its token has been stored in the
cache under the client's key. -/
theorem GetAccessToken_some (env : Env) (dtc : DingTalkClient) (w : World)
    (r : dingTalkAccessTokenResp) (h : (dtc.GetAccessToken env w).val = some r) :
    r.ErrCode = 0 ∧ (dtc.GetAccessToken env w).world.c = w.c.Update dtc.AppKey r.AccessToken ∧
    ∃ resp b, env.clientDo (dtc.tokenHistory w) dtc.tokenRequest = .ok resp ∧
      resp.Body = .ok b ∧ env.unmarshalAccessTokenResp b = some r := by
  generalize hout : dtc.GetAccessToken env w = out at h
  simp only [DingTalkClient.GetAccessToken] at hout
  repeat' split at hout
  all_goals (subst hout; simp at h)
  subst h
  refine ⟨by assumption, by simp [World.log], _, _, ?_, by assumption, by assumption⟩
  simpa [DingTalkClient.tokenHistory, DingTalkClient.tokenRequest, World.log] using
    (by assumption : env.clientDo _ _ = Except.ok _)

/-- The three ways `GetAccessTokenFromCache` can end. -/
theorem GetAccessTokenFromCache_cases (env : Env) (dtc : DingTalkClient) (w : World) :
    (w.c.Get dtc.AppKey ≠ "" ∧
      dtc.GetAccessTokenFromCache env w = ⟨w.c.Get dtc.AppKey, none, w⟩) ∨
    (w.c.Get dtc.AppKey = "" ∧ ∃ e, (dtc.GetAccessToken env w).err = some e ∧
      dtc.GetAccessTokenFromCache env w =
        ⟨"", some (NewMessageError e.Error), (dtc.GetAccessToken env w).world⟩) ∨
    (w.c.Get dtc.AppKey = "" ∧ ∃ r, (dtc.GetAccessToken env w).val = some r ∧
      (dtc.GetAccessToken env w).err = none ∧
      dtc.GetAccessTokenFromCache env w =
        ⟨r.AccessToken, none, (dtc.GetAccessToken env w).world⟩) := by
  have hs := GetAccessToken_val_err env dtc w
  by_cases hc : w.c.Get dtc.AppKey = ""
  · right
    rcases hg : dtc.GetAccessToken env w with ⟨val, err, world⟩
    rw [hg] at hs
    cases err with
    | some e =>
      left
      exact ⟨hc, e, rfl, by simp [DingTalkClient.GetAccessTokenFromCache, hc, hg]⟩
    | none =>
      right
      cases val with
      | none => simp [Ret.wellShaped] at hs
      | some r =>
        exact ⟨hc, r, rfl, rfl, by simp [DingTalkClient.GetAccessTokenFromCache, hc, hg]⟩
  · left
    exact ⟨hc, by simp [DingTalkClient.GetAccessTokenFromCache, hc]⟩

/-- After a call of `GetAccessTokenFromCache` that returns a nil error, the cache holds the
returned token under the client's key. -/
theorem GetAccessTokenFromCache_cached (env : Env) (dtc : DingTalkClient) (w : World)
    (h : (dtc.GetAccessTokenFromCache env w).err = none) :
    (dtc.GetAccessTokenFromCache env w).world.c.Get dtc.AppKey =
      (dtc.GetAccessTokenFromCache env w).val := by
  rcases GetAccessTokenFromCache_cases env dtc w with ⟨_, h1⟩ | ⟨_, e, _, h1⟩ | ⟨_, r, hr, _, h1⟩
  · rw [h1]
  · rw [h1] at h; simp at h
  · rw [h1]
    simp only
    rw [(GetAccessToken_some env dtc w r hr).2.1, DingTalkAccessTokenCache.Get_Update]

/-- When the request is accepted and answered with a body that decodes with errcode 0,
`GetAccessToken` returns the decoded response and a nil error. -/
theorem GetAccessToken_ok (env : Env) (dtc : DingTalkClient) (w : World)
    (resp : Response) (b : String) (r : dingTalkAccessTokenResp)
    (hKey : dtc.AppKey ≠ "") (hSecret : dtc.AppSecret ≠ "")
    (hReq : env.newRequestErr "GET" dtc.tokenRequest.url = none)
    (hDo : env.clientDo (dtc.tokenHistory w) dtc.tokenRequest = .ok resp)
    (hBody : resp.Body = .ok b)
    (hDec : env.unmarshalAccessTokenResp b = some r)
    (hCode : r.ErrCode = 0) :
    (dtc.GetAccessToken env w).val = some r ∧ (dtc.GetAccessToken env w).err = none := by
  simp only [DingTalkClient.tokenRequest, DingTalkClient.tokenHistory] at hReq hDo
  simp [DingTalkClient.GetAccessToken, hKey, hSecret, hReq, World.log, hDo, hBody, hDec, hCode]

/-- C1: with non-empty AppKey and AppSecret, when the token endpoint answers the request with a
body that decodes to `r` with errcode 0, `GetAccessToken` returns a nil error and the decoded
response (so its access_token), afterwards `Get(AppKey)` on the shared cache is exactly
`r.AccessToken`, and the items under all other keys are unchanged. -/
theorem GetAccessToken_success_populates_cache (env : Env) (dtc : DingTalkClient) (w : World)
    (resp : Response) (b : String) (r : dingTalkAccessTokenResp)
    (hKey : dtc.AppKey ≠ "") (hSecret : dtc.AppSecret ≠ "")
    (hReq : env.newRequestErr "GET" dtc.tokenRequest.url = none)
    (hDo : env.clientDo (dtc.tokenHistory w) dtc.tokenRequest = .ok resp)
    (hBody : resp.Body = .ok b)
    (hDec : env.unmarshalAccessTokenResp b = some r)
    (hCode : r.ErrCode = 0) :
    (dtc.GetAccessToken env w).err = none ∧
    (dtc.GetAccessToken env w).val = some r ∧
    (dtc.GetAccessToken env w).world.c.Get dtc.AppKey = r.AccessToken ∧
    ∀ k, k ≠ dtc.AppKey →
      (dtc.GetAccessToken env w).world.c.C.Get k = w.c.C.Get k := by
  simp only [DingTalkClient.tokenRequest, DingTalkClient.tokenHistory] at hReq hDo
  simp [DingTalkClient.GetAccessToken, hKey, hSecret, hReq, World.log, hDo, hBody, hDec, hCode,
    DingTalkAccessTokenCache.Get, DingTalkAccessTokenCache.Update, GoCache.Get, GoCache.Set]
  intro k hk h
  exact absurd h hk

/-- Witness of C1 on the sample client, the empty world and a constant environment. -/
theorem GetAccessToken_success_populates_cache_witness :
    (sampleClient.GetAccessToken (Env.const "b" (some (tokenOk "tok")) none none)
      World.empty).err = none ∧
    (sampleClient.GetAccessToken (Env.const "b" (some (tokenOk "tok")) none none)
      World.empty).val = some (tokenOk "tok") ∧
    (sampleClient.GetAccessToken (Env.const "b" (some (tokenOk "tok")) none none)
      World.empty).world.c.Get sampleClient.AppKey = (tokenOk "tok").AccessToken ∧
    ∀ k, k ≠ sampleClient.AppKey →
      (sampleClient.GetAccessToken (Env.const "b" (some (tokenOk "tok")) none none)
        World.empty).world.c.C.Get k = World.empty.c.C.Get k :=
  GetAccessToken_success_populates_cache (Env.const "b" (some (tokenOk "tok")) none none)
    sampleClient World.empty { StatusCode := 200, Body := .ok "b" } "b" (tokenOk "tok")
    (by decide) (by decide) rfl rfl rfl rfl rfl

/-- C2: with non-empty AppKey and AppSecret, when the token endpoint answers the request with a
body that decodes to `r` with a non-zero errcode, `GetAccessToken` returns a nil result and a
non-nil error whose message is `r.ErrMsg` verbatim, and the shared cache is exactly the cache
before the call. -/
theorem GetAccessToken_rejected_keeps_cache (env : Env) (dtc : DingTalkClient) (w : World)
    (resp : Response) (b : String) (r : dingTalkAccessTokenResp)
    (hKey : dtc.AppKey ≠ "") (hSecret : dtc.AppSecret ≠ "")
    (hReq : env.newRequestErr "GET" dtc.tokenRequest.url = none)
    (hDo : env.clientDo (dtc.tokenHistory w) dtc.tokenRequest = .ok resp)
    (hBody : resp.Body = .ok b)
    (hDec : env.unmarshalAccessTokenResp b = some r)
    (hCode : r.ErrCode ≠ 0) :
    (dtc.GetAccessToken env w).val = none ∧
    (∃ e, (dtc.GetAccessToken env w).err = some e ∧ e.Error = r.ErrMsg) ∧
    (dtc.GetAccessToken env w).world.c = w.c := by
  simp only [DingTalkClient.tokenRequest, DingTalkClient.tokenHistory] at hReq hDo
  simp [DingTalkClient.GetAccessToken, hKey, hSecret, hReq, World.log, hDo, hBody, hDec, hCode,
    NewMessageError, GoError.Error, MessageError.Error]

/-- Witness of C2 on the sample client, the empty world and a rejecting environment. -/
theorem GetAccessToken_rejected_keeps_cache_witness :
    (sampleClient.GetAccessToken (Env.const "b" (some tokenRejected) none none)
      World.empty).val = none ∧
    (∃ e, (sampleClient.GetAccessToken (Env.const "b" (some tokenRejected) none none)
      World.empty).err = some e ∧ e.Error = tokenRejected.ErrMsg) ∧
    (sampleClient.GetAccessToken (Env.const "b" (some tokenRejected) none none)
      World.empty).world.c = World.empty.c :=
  GetAccessToken_rejected_keeps_cache (Env.const "b" (some tokenRejected) none none)
    sampleClient World.empty { StatusCode := 200, Body := .ok "b" } "b" tokenRejected
    (by decide) (by decide) rfl rfl rfl rfl (by decide)

/-- C3: when AppKey or AppSecret is empty, `GetAccessToken` returns a nil result and the
invalid-credential `MessageError`, and leaves the world as it was: no request is built or sent
(the trace is unchanged) and the cache is untouched, for every environment. -/
theorem GetAccessToken_invalid_credential (env : Env) (dtc : DingTalkClient) (w : World)
    (h : dtc.AppKey = "" ∨ dtc.AppSecret = "") :
    (dtc.GetAccessToken env w).val = none ∧
    (dtc.GetAccessToken env w).err =
      some (GoError.messageError { Msg := "不可用的AppKey或AppSecret!" }) ∧
    (dtc.GetAccessToken env w).world.trace = w.trace ∧
    (dtc.GetAccessToken env w).world.c = w.c := by
  simp [DingTalkClient.GetAccessToken, h, NewMessageError]

/-- Witness of C3: an empty AppSecret, in an environment that would have answered with a token. -/
theorem GetAccessToken_invalid_credential_witness :
    (DingTalkClient.GetAccessToken (Env.const "b" (some (tokenOk "tok")) none none)
      { AppKey := "key", AppSecret := "", AgentID := "", CorpID := "" } World.empty).val = none ∧
    (DingTalkClient.GetAccessToken (Env.const "b" (some (tokenOk "tok")) none none)
      { AppKey := "key", AppSecret := "", AgentID := "", CorpID := "" } World.empty).err =
      some (GoError.messageError { Msg := "不可用的AppKey或AppSecret!" }) ∧
    (DingTalkClient.GetAccessToken (Env.const "b" (some (tokenOk "tok")) none none)
      { AppKey := "key", AppSecret := "", AgentID := "", CorpID := "" }
      World.empty).world.trace = World.empty.trace ∧
    (DingTalkClient.GetAccessToken (Env.const "b" (some (tokenOk "tok")) none none)
      { AppKey := "key", AppSecret := "", AgentID := "", CorpID := "" }
      World.empty).world.c = World.empty.c :=
  GetAccessToken_invalid_credential (Env.const "b" (some (tokenOk "tok")) none none)
    { AppKey := "key", AppSecret := "", AgentID := "", CorpID := "" } World.empty
    (Or.inr rfl)

/-- C7: each of `GetAccessToken`, `GetUserInfoByTempCode` and `GetUserDetailByTemCode` returns,
for every input, world and environment, exactly one of a non-nil result and a non-nil error,
every returned error is a `*MessageError`, and `GetAccessTokenFromCache` returns the empty token
(and a `*MessageError`) whenever its error is non-nil. -/
theorem results_all_or_nothing (env : Env) (dtc : DingTalkClient) (tempCode : String)
    (w : World) :
    (dtc.GetAccessToken env w).wellShaped ∧
    (dtc.GetUserInfoByTempCode env tempCode w).wellShaped ∧
    (dtc.GetUserDetailByTemCode env tempCode w).wellShaped ∧
    ((dtc.GetAccessTokenFromCache env w).err = none ∨
      ((dtc.GetAccessTokenFromCache env w).val = "" ∧
        ∃ e, (dtc.GetAccessTokenFromCache env w).err = some e ∧ e.isMessageError = true)) := by
  refine ⟨GetAccessToken_val_err env dtc w, GetUserInfoByTempCode_val_err env dtc tempCode w,
    GetUserDetailByTemCode_val_err env dtc tempCode w, ?_⟩
  cases h : (dtc.GetAccessTokenFromCache env w).err with
  | none => exact Or.inl rfl
  | some e =>
    have := GetAccessTokenFromCache_err env dtc w e h
    exact Or.inr ⟨this.1, e, rfl, this.2⟩

/-- C4, as stated, fails: against a token endpoint that answers errcode 0 without an
access_token, `GetAccessTokenFromCache` on an empty cache returns the empty token together with
a nil error. -/
theorem GetAccessTokenFromCache_empty_token_nil_error :
    (sampleClient.GetAccessTokenFromCache Env.emptyToken World.empty).val = "" ∧
    (sampleClient.GetAccessTokenFromCache Env.emptyToken World.empty).err = none := by
  decide

/-- C4, amended: an empty or absent cache entry always triggers a call to `GetAccessToken` (the
call ends in the world that `GetAccessToken` leaves and fails exactly when it fails); whenever
the returned error is nil the returned token is non-empty, unless the cache entry was empty or
absent and the token endpoint answered with a body that decodes with errcode 0 and an empty
access_token; and in that case (entry empty or absent, credentials set, request accepted, body
decoding with errcode 0 and an empty access_token) the empty token is returned with a nil
error. -/
theorem GetAccessTokenFromCache_refresh (env : Env) (dtc : DingTalkClient) (w : World) :
    (w.c.Get dtc.AppKey = "" →
      (dtc.GetAccessTokenFromCache env w).world = (dtc.GetAccessToken env w).world ∧
      ((dtc.GetAccessTokenFromCache env w).err = none ↔ (dtc.GetAccessToken env w).err = none)) ∧
    ((dtc.GetAccessTokenFromCache env w).err = none →
      (dtc.GetAccessTokenFromCache env w).val ≠ "" ∨
      (w.c.Get dtc.AppKey = "" ∧
        ∃ resp b r, env.clientDo (dtc.tokenHistory w) dtc.tokenRequest = .ok resp ∧
          resp.Body = .ok b ∧ env.unmarshalAccessTokenResp b = some r ∧ r.ErrCode = 0 ∧
          r.AccessToken = "")) ∧
    (∀ resp b r, w.c.Get dtc.AppKey = "" → dtc.AppKey ≠ "" → dtc.AppSecret ≠ "" →
      env.newRequestErr "GET" dtc.tokenRequest.url = none →
      env.clientDo (dtc.tokenHistory w) dtc.tokenRequest = .ok resp →
      resp.Body = .ok b → env.unmarshalAccessTokenResp b = some r → r.ErrCode = 0 →
      r.AccessToken = "" →
      (dtc.GetAccessTokenFromCache env w).val = "" ∧
      (dtc.GetAccessTokenFromCache env w).err = none) := by
  refine ⟨?_, ?_, ?_⟩
  · rcases GetAccessTokenFromCache_cases env dtc w with
      ⟨hc, _⟩ | ⟨_, e, he, h1⟩ | ⟨_, r, _, he, h1⟩
    · exact fun h => absurd h hc
    · intro _; rw [h1, he]; simp
    · intro _; rw [h1, he]; simp
  · rcases GetAccessTokenFromCache_cases env dtc w with
      ⟨hc, h1⟩ | ⟨_, e, _, h1⟩ | ⟨hc, r, hr, _, h1⟩
    · intro _; left; rw [h1]; exact hc
    · intro h; rw [h1] at h; simp at h
    · intro _
      by_cases ht : r.AccessToken = ""
      · obtain ⟨h0, _, resp, b, hd, hb, hu⟩ := GetAccessToken_some env dtc w r hr
        exact Or.inr ⟨hc, resp, b, r, hd, hb, hu, h0, ht⟩
      · left; rw [h1]; exact ht
  · intro resp b r hMiss hKey hSecret hReq hDo hBody hDec hCode hTok
    obtain ⟨hv, he⟩ := GetAccessToken_ok env dtc w resp b r hKey hSecret hReq hDo hBody hDec hCode
    simp [DingTalkClient.GetAccessTokenFromCache, hMiss, hv, he, hTok]

/-- Witness of the amended C4: on the sample client and the empty world, a refresh that yields
the token `tok`, and a refresh against the endpoint that answers errcode 0 without an
access_token, which returns the empty token with a nil error. -/
theorem GetAccessTokenFromCache_refresh_witness :
    ((sampleClient.GetAccessTokenFromCache (Env.const "b" (some (tokenOk "tok")) none none)
      World.empty).world =
      (sampleClient.GetAccessToken (Env.const "b" (some (tokenOk "tok")) none none)
        World.empty).world ∧
    (sampleClient.GetAccessTokenFromCache (Env.const "b" (some (tokenOk "tok")) none none)
      World.empty).val = "tok") ∧
    ((sampleClient.GetAccessTokenFromCache Env.emptyToken World.empty).val = "" ∧
    (sampleClient.GetAccessTokenFromCache Env.emptyToken World.empty).err = none) :=
  ⟨⟨((GetAccessTokenFromCache_refresh (Env.const "b" (some (tokenOk "tok")) none none)
      sampleClient World.empty).1 (by decide)).1, by decide⟩,
    (GetAccessTokenFromCache_refresh Env.emptyToken sampleClient World.empty).2.2
      { StatusCode := 200, Body := .ok "\x7b\"errcode\":0,\"errmsg\":\"ok\"\x7d" }
      "\x7b\"errcode\":0,\"errmsg\":\"ok\"\x7d"
      { ErrCode := 0, ErrMsg := "ok", AccessToken := "", ExpiresIn := 0 }
      (by decide) (by decide) (by decide) rfl rfl rfl rfl rfl rfl⟩

/-- C5, as stated, fails: against a token endpoint that answers errcode 0 without an
access_token, the first call on an empty cache returns successfully, and the second call sends
a second token request instead of hitting the cache. -/
theorem GetAccessTokenFromCache_twice_two_requests :
    (sampleClient.GetAccessTokenFromCache Env.emptyToken World.empty).err = none ∧
    World.empty.sendCount = 0 ∧
    (sampleClient.GetAccessTokenFromCache Env.emptyToken World.empty).world.sendCount = 1 ∧
    (sampleClient.GetAccessTokenFromCache Env.emptyToken
      (sampleClient.GetAccessTokenFromCache Env.emptyToken World.empty).world).world.sendCount
      = 2 := by
  decide

/-- C5, amended: when `GetAccessTokenFromCache` is called twice in a row, with no change of the
cache in between, and the first call returns a nil error and a non-empty token, then the second
call is a cache hit: it returns the same token and a nil error and leaves the world as it found
it (no call into the network), so both calls together put at most one request on the wire. -/
theorem GetAccessTokenFromCache_twice (env : Env) (dtc : DingTalkClient) (w : World)
    (hErr : (dtc.GetAccessTokenFromCache env w).err = none)
    (hTok : (dtc.GetAccessTokenFromCache env w).val ≠ "") :
    (dtc.GetAccessTokenFromCache env (dtc.GetAccessTokenFromCache env w).world).val =
      (dtc.GetAccessTokenFromCache env w).val ∧
    (dtc.GetAccessTokenFromCache env (dtc.GetAccessTokenFromCache env w).world).err = none ∧
    (dtc.GetAccessTokenFromCache env (dtc.GetAccessTokenFromCache env w).world).world =
      (dtc.GetAccessTokenFromCache env w).world ∧
    (dtc.GetAccessTokenFromCache env (dtc.GetAccessTokenFromCache env w).world).world.sendCount
      ≤ w.sendCount + 1 := by
  have hc := GetAccessTokenFromCache_cached env dtc w hErr
  have hhit : (dtc.GetAccessTokenFromCache env w).world.c.Get dtc.AppKey ≠ "" := by
    rw [hc]; exact hTok
  have h2 : dtc.GetAccessTokenFromCache env (dtc.GetAccessTokenFromCache env w).world =
      ⟨(dtc.GetAccessTokenFromCache env w).val, none,
        (dtc.GetAccessTokenFromCache env w).world⟩ := by
    rcases GetAccessTokenFromCache_cases env dtc (dtc.GetAccessTokenFromCache env w).world with
      ⟨_, h⟩ | ⟨h, _⟩ | ⟨h, _⟩
    · rw [h, hc]
    · exact absurd h hhit
    · exact absurd h hhit
  rw [h2]
  refine ⟨rfl, rfl, rfl, ?_⟩
  rcases GetAccessTokenFromCache_cases env dtc w with ⟨_, h⟩ | ⟨_, e, _, h⟩ | ⟨_, r, _, _, h⟩
  · rw [h]; exact Nat.le_succ _
  · rw [h]; exact GetAccessToken_sendCount env dtc w
  · rw [h]; exact GetAccessToken_sendCount env dtc w

/-- Witness of the amended C5 on the sample client, the empty world and a token `tok`. -/
theorem GetAccessTokenFromCache_twice_witness :
    (sampleClient.GetAccessTokenFromCache (Env.const "b" (some (tokenOk "tok")) none none)
      (sampleClient.GetAccessTokenFromCache (Env.const "b" (some (tokenOk "tok")) none none)
        World.empty).world).val =
      (sampleClient.GetAccessTokenFromCache (Env.const "b" (some (tokenOk "tok")) none none)
        World.empty).val ∧
    (sampleClient.GetAccessTokenFromCache (Env.const "b" (some (tokenOk "tok")) none none)
      (sampleClient.GetAccessTokenFromCache (Env.const "b" (some (tokenOk "tok")) none none)
        World.empty).world).err = none ∧
    (sampleClient.GetAccessTokenFromCache (Env.const "b" (some (tokenOk "tok")) none none)
      (sampleClient.GetAccessTokenFromCache (Env.const "b" (some (tokenOk "tok")) none none)
        World.empty).world).world =
      (sampleClient.GetAccessTokenFromCache (Env.const "b" (some (tokenOk "tok")) none none)
        World.empty).world ∧
    (sampleClient.GetAccessTokenFromCache (Env.const "b" (some (tokenOk "tok")) none none)
      (sampleClient.GetAccessTokenFromCache (Env.const "b" (some (tokenOk "tok")) none none)
        World.empty).world).world.sendCount ≤ World.empty.sendCount + 1 :=
  GetAccessTokenFromCache_twice (Env.const "b" (some (tokenOk "tok")) none none) sampleClient
    World.empty (by decide) (by decide)

/-- C6: when, inside `GetUserDetailByTemCode`, the token step succeeds and the
`GetUserInfoByTempCode` step fails with an error `e` (whatever the cause), the call returns a nil
result and an error with the message of `e`, it ends in the world the user-info step left, and
no call made since the start addresses the user-detail endpoint. -/
theorem GetUserDetailByTemCode_info_failure (env : Env) (dtc : DingTalkClient)
    (tempCode : String) (w : World) (e : GoError)
    (hTok : (dtc.GetAccessTokenFromCache env w).err = none)
    (hInfo : (dtc.GetUserInfoByTempCode env tempCode
      (dtc.GetAccessTokenFromCache env w).world).err = some e) :
    (dtc.GetUserDetailByTemCode env tempCode w).val = none ∧
    (∃ e', (dtc.GetUserDetailByTemCode env tempCode w).err = some e' ∧ e'.Error = e.Error) ∧
    (dtc.GetUserDetailByTemCode env tempCode w).world =
      (dtc.GetUserInfoByTempCode env tempCode (dtc.GetAccessTokenFromCache env w).world).world ∧
    w.noDetailSince (dtc.GetUserDetailByTemCode env tempCode w).world := by
  have hw : (dtc.GetUserDetailByTemCode env tempCode w) =
      ⟨none, some (NewMessageError e.Error),
        (dtc.GetUserInfoByTempCode env tempCode
          (dtc.GetAccessTokenFromCache env w).world).world⟩ := by
    simp only [DingTalkClient.GetUserDetailByTemCode, hTok, hInfo]
  rw [hw]
  refine ⟨rfl, ⟨_, rfl, rfl⟩, rfl, ?_⟩
  exact World.noDetailSince_trans (GetAccessTokenFromCache_trace env dtc w)
    (GetUserInfoByTempCode_trace env dtc tempCode _)

/-- Witness of C6: the token endpoint answers with a token, the user-info body does not
decode. -/
theorem GetUserDetailByTemCode_info_failure_witness :
    (sampleClient.GetUserDetailByTemCode (Env.const "b" (some (tokenOk "tok")) none none)
      "code" World.empty).val = none ∧
    (∃ e', (sampleClient.GetUserDetailByTemCode (Env.const "b" (some (tokenOk "tok")) none none)
      "code" World.empty).err = some e' ∧
      e'.Error = (NewMessageError "json解析钉钉接口响应错误").Error) ∧
    (sampleClient.GetUserDetailByTemCode (Env.const "b" (some (tokenOk "tok")) none none)
      "code" World.empty).world =
      (sampleClient.GetUserInfoByTempCode (Env.const "b" (some (tokenOk "tok")) none none) "code"
        (sampleClient.GetAccessTokenFromCache (Env.const "b" (some (tokenOk "tok")) none none)
          World.empty).world).world ∧
    World.empty.noDetailSince
      (sampleClient.GetUserDetailByTemCode (Env.const "b" (some (tokenOk "tok")) none none)
        "code" World.empty).world :=
  GetUserDetailByTemCode_info_failure (Env.const "b" (some (tokenOk "tok")) none none)
    sampleClient "code" World.empty (NewMessageError "json解析钉钉接口响应错误")
    (by decide) (by decide)

/-- C8: `SendMsg` returns a non-nil error exactly when `http.Post` reports an error, the error
is then a `*MessageError` with the message of the reported error, and when `http.Post` yields a
response, whatever its status code and body, `SendMsg` returns nil. -/
theorem SendMsg_error_iff_post_error (env : Env) (dtr : DingTalkRobot) (msg : DingTalkMsg)
    (w : World) :
    ((dtr.SendMsg env msg w).err ≠ none ↔
      ∃ err, env.httpPost w.trace (dtu.BuildRobotSendMsgURL dtr.AccessToken) "application/json"
        msg.marshal = .error err) ∧
    (∀ err, env.httpPost w.trace (dtu.BuildRobotSendMsgURL dtr.AccessToken) "application/json"
        msg.marshal = .error err →
      (dtr.SendMsg env msg w).err = some (GoError.messageError { Msg := err.Error })) ∧
    (∀ resp, env.httpPost w.trace (dtu.BuildRobotSendMsgURL dtr.AccessToken) "application/json"
        msg.marshal = .ok resp →
      (dtr.SendMsg env msg w).err = none) := by
  simp only [DingTalkRobot.SendMsg]
  cases h : env.httpPost w.trace (dtu.BuildRobotSendMsgURL dtr.AccessToken) "application/json"
      msg.marshal with
  | error err => simp [NewMessageError]
  | ok resp => simp

/-- The text `json.Marshal` writes for a message, around the encoded fields. -/
theorem DingTalkMsg.marshal_skeleton (msg : DingTalkMsg) :
    msg.marshal = "\x7b" ++ ("\"msgtype\":" ++ jsonString msg.Msgtype) ++
      (",\"markdown\":" ++ msg.Markdown.marshal ++ ",\"at\":" ++ msg.At.marshal ++ "\x7d") := by
  have h1 : jsonString "msgtype" = "\"msgtype\"" := by decide
  have h2 : jsonString "markdown" = "\"markdown\"" := by decide
  have h3 : jsonString "at" = "\"at\"" := by decide
  simp only [DingTalkMsg.marshal, jsonObject, List.map, String.intercalate, String.intercalate.go,
    h1, h2, h3]
  apply String.ext
  simp [String.data_append]

/-- The text of the `at` object ends with the `isAtAll` member when the flag is set. -/
theorem DingTalkAt.marshal_tail (a : DingTalkAt) (h : a.IsAtAll = true) :
    ∃ pre, a.marshal = pre ++ "\"isAtAll\":true" ++ "\x7d" := by
  have h1 : jsonString "isAtAll" = "\"isAtAll\"" := by decide
  by_cases hm : a.AtMobiles.length = 0
  · refine ⟨"\x7b", ?_⟩
    simp only [DingTalkAt.marshal, hm, h, jsonObject, List.map, String.intercalate,
      String.intercalate.go, h1, if_true, List.nil_append]
    apply String.ext
    simp [String.data_append]
  · refine ⟨"\x7b" ++ jsonString "atMobiles" ++ ":" ++ jsonStringArray a.AtMobiles ++ ",", ?_⟩
    simp only [DingTalkAt.marshal, hm, h, jsonObject, List.map, String.intercalate,
      String.intercalate.go, h1, if_false, List.cons_append, List.nil_append]
    apply String.ext
    simp [String.data_append]

/-- Splitting on the comma: the pieces, joined by commas, give back the input, and there is one
more piece than there are commas. -/
theorem stringsSplitLoop_comma (l : List Char) :
    ∃ hd tl, stringsSplitLoop [','] l 0 = hd :: tl ∧
      hd ++ (tl.map fun a => ',' :: a).flatten = l ∧ tl.length = l.count ',' := by
  induction l with
  | nil => exact ⟨[], [], rfl, rfl, rfl⟩
  | cons c cs ih =>
    obtain ⟨hd, tl, h1, h2, h3⟩ := ih
    by_cases hc : c = ','
    · subst hc
      refine ⟨[], hd :: tl, ?_, ?_, ?_⟩
      · simp [stringsSplitLoop, List.isPrefixOf, h1]
      · simp [h2]
      · simp [h3]
    · refine ⟨c :: hd, tl, ?_, ?_, ?_⟩
      · have : (',' == c) = false := by
          simp only [beq_eq_false_iff_ne, ne_eq]
          exact fun h => hc h.symm
        simp [stringsSplitLoop, List.isPrefixOf, h1, this]
      · simp [h2]
      · simp [h3, List.count_cons, hc]

/-- The characters produced by the loop of `String.intercalate`. -/
theorem intercalate_go_data (sep acc : String) (l : List String) :
    (String.intercalate.go acc sep l).data =
      acc.data ++ (l.map fun a => sep.data ++ a.data).flatten := by
  induction l generalizing acc with
  | nil => simp [String.intercalate.go]
  | cons a as ih => simp [String.intercalate.go, ih, String.data_append]

/-- Go `strings.Split(s, ",")` yields one more piece than `s` has commas, and
`strings.Join` with the comma restores `s`. -/
theorem stringsSplit_comma (s : String) :
    (stringsSplit s ",").length = commaCount s + 1 ∧
    stringsJoin (stringsSplit s ",") "," = s := by
  obtain ⟨hd, tl, h1, h2, h3⟩ := stringsSplitLoop_comma s.data
  have hne : ("," : String) ≠ "" := by decide
  have hd1 : (",": String).data = [','] := rfl
  constructor
  · simp [stringsSplit, hne, hd1, h1, h3, commaCount]
  · apply String.ext
    simp only [stringsJoin, stringsSplit, hne, if_false, hd1, h1, List.map, String.intercalate,
      intercalate_go_data]
    rw [← h2]
    simp [List.map_map, Function.comp_def]

/-- C9: for every title, text and atMobiles list, the body `SendMsg` posts for a markdown
message with `IsAtAll = true` contains the fragments for msgtype markdown and for isAtAll true,
the post goes to `openApiURL`, then `/robot/send?access_token=`, then the robot's AccessToken,
with that body, and for title T, text hello and no mobiles the body is exactly the expected
text. -/
theorem SendMsg_markdown_body (env : Env) (dtr : DingTalkRobot) (w : World)
    (title text : String) (atMobiles : List String) :
    (∃ pre post, (DingTalkMsg.marshal ⟨"markdown", ⟨title, text⟩, ⟨atMobiles, true⟩⟩) =
      pre ++ "\"msgtype\":\"markdown\"" ++ post) ∧
    (∃ pre post, (DingTalkMsg.marshal ⟨"markdown", ⟨title, text⟩, ⟨atMobiles, true⟩⟩) =
      pre ++ "\"isAtAll\":true" ++ post) ∧
    (dtr.SendMsg env ⟨"markdown", ⟨title, text⟩, ⟨atMobiles, true⟩⟩ w).world.trace =
      w.trace ++ [Event.post (dtu.openApiURL ++ "/robot/send?access_token=" ++ dtr.AccessToken)
        "application/json" (DingTalkMsg.marshal ⟨"markdown", ⟨title, text⟩, ⟨atMobiles, true⟩⟩)] ∧
    (DingTalkMsg.marshal ⟨"markdown", ⟨"T", "hello"⟩, ⟨[], true⟩⟩) =
      "\x7b\"msgtype\":\"markdown\",\"markdown\":\x7b\"title\":\"T\",\"text\":\"hello\"\x7d,\"at\":\x7b\"isAtAll\":true\x7d\x7d" := by
  have hm : jsonString "markdown" = "\"markdown\"" := by decide
  refine ⟨⟨"\x7b", ",\"markdown\":" ++ DingTalkMarkdownMsg.marshal ⟨title, text⟩ ++ ",\"at\":" ++
    DingTalkAt.marshal ⟨atMobiles, true⟩ ++ "\x7d", ?_⟩, ?_, ?_, by decide⟩
  · rw [DingTalkMsg.marshal_skeleton, hm]
    apply String.ext
    simp [String.data_append]
  · obtain ⟨pre, hpre⟩ := DingTalkAt.marshal_tail ⟨atMobiles, true⟩ rfl
    refine ⟨"\x7b" ++ ("\"msgtype\":" ++ jsonString "markdown") ++
      (",\"markdown\":" ++ DingTalkMarkdownMsg.marshal ⟨title, text⟩ ++ ",\"at\":") ++ pre,
      "\x7d\x7d", ?_⟩
    rw [DingTalkMsg.marshal_skeleton, hpre]
    apply String.ext
    simp [String.data_append]
  · simp only [DingTalkRobot.SendMsg]
    have hu : dtu.BuildRobotSendMsgURL dtr.AccessToken =
        dtu.openApiURL ++ "/robot/send?access_token=" ++ dtr.AccessToken := by
      apply String.ext
      simp [dingTalkURL.BuildRobotSendMsgURL, stringsJoin, String.intercalate,
        String.intercalate.go, String.data_append]
    cases h : env.httpPost w.trace (dtu.BuildRobotSendMsgURL dtr.AccessToken) "application/json"
        (DingTalkMsg.marshal ⟨"markdown", ⟨title, text⟩, ⟨atMobiles, true⟩⟩) with
    | error err => simp [World.log, hu]
    | ok resp => simp [World.log, hu]

/-- C10: for all recipient strings, `SendText` and `SendTextWithAttach` hand the pieces of
`strings.Split(toStr, ",")` to the To header and those of `strings.Split(CcStr, ",")` to the Cc
header; a string with n commas yields n+1 pieces which, joined by commas in order, give back
the string; two addresses separated by a comma yield those two recipients, and the empty string
yields the single recipient that is the empty string. -/
theorem mail_recipients_split (env : MailEnv) (m : mail)
    (subject sender toStr CcStr body : String) (filePath : List String) :
    (m.SendText env subject sender toStr CcStr body).sent.header "To" =
      some (stringsSplit toStr ",") ∧
    (m.SendText env subject sender toStr CcStr body).sent.header "Cc" =
      some (stringsSplit CcStr ",") ∧
    (m.SendTextWithAttach env subject sender toStr CcStr body filePath).sent.header "To" =
      some (stringsSplit toStr ",") ∧
    (m.SendTextWithAttach env subject sender toStr CcStr body filePath).sent.header "Cc" =
      some (stringsSplit CcStr ",") ∧
    (stringsSplit toStr ",").length = commaCount toStr + 1 ∧
    stringsJoin (stringsSplit toStr ",") "," = toStr ∧
    (stringsSplit CcStr ",").length = commaCount CcStr + 1 ∧
    stringsJoin (stringsSplit CcStr ",") "," = CcStr ∧
    stringsSplit "a@x.com,b@x.com" "," = ["a@x.com", "b@x.com"] ∧
    stringsSplit "" "," = [""] := by
  have h1 : ("To" : String) ≠ "Subject" := by decide
  have h2 : ("To" : String) ≠ "Cc" := by decide
  refine ⟨?_, ?_, ?_, ?_, (stringsSplit_comma toStr).1, (stringsSplit_comma toStr).2,
    (stringsSplit_comma CcStr).1, (stringsSplit_comma CcStr).2, by decide, by decide⟩
  · simp [mail.SendText, GomailMessage.SetHeader, GomailMessage.SetBody, h1, h2]
  · simp [mail.SendText, GomailMessage.SetHeader, GomailMessage.SetBody]
  · simp [mail.SendTextWithAttach, GomailMessage.SetHeader, GomailMessage.SetBody, h1, h2]
  · simp [mail.SendTextWithAttach, GomailMessage.SetHeader, GomailMessage.SetBody]

end Message
